import Mathlib

/-!
Verification development for the Mach-O bind-opcode interpreter of
`src/mach/imports.rs` (the `goblin` repository).

The Rust source is shallowly embedded: bytes are `List Nat` entries, the
machine integers `u8`/`u64` are `Nat` with explicit `% 2 ^ 8` / `% 2 ^ 64`
where the source wraps (`wrapping_add`), and fallible code returns
`Except BindError`.  Rust failure channels are kept apart in `BindError`:
`badOffset` models a `scroll` read error (a read running past the end of
the underlying byte buffer, propagated through `?` as `error::Result`),
while `panicIndex` and `panicOverflow` model Rust panics (slice indexing
out of bounds, and arithmetic overflow of a plain `+` under debug
assertions), which unwind rather than return an error value.
`fuelExhausted` is an artifact of the fuel-based loop encoding; it is
proved unreachable for the fuel the top-level entry points supply.
-/

/-- Modelled from the spec: the `mach::bind_opcodes` module is not under
`src/`; only `src/mach/imports.rs` is.  Per spec section 3, an opcode byte
splits into a 4-bit operation code and a 4-bit immediate with masks
`0xF0` / `0x0F`. -/
@[simp] def BIND_OPCODE_MASK : Nat := 0xF0

/-- Modelled from the spec: the 4-bit immediate mask `0x0F` (spec section 3). -/
@[simp] def BIND_IMMEDIATE_MASK : Nat := 0x0F

/-- Modelled from the spec: the closed operation-code enumeration of spec
section 3, in its listed order, with the standard Mach-O encodings
`0x00, 0x10, ..., 0xC0`. -/
@[simp] def BIND_OPCODE_DONE : Nat := 0x00

/-- Modelled from the spec: see `BIND_OPCODE_DONE`. -/
@[simp] def BIND_OPCODE_SET_DYLIB_ORDINAL_IMM : Nat := 0x10

/-- Modelled from the spec: see `BIND_OPCODE_DONE`. -/
@[simp] def BIND_OPCODE_SET_DYLIB_ORDINAL_ULEB : Nat := 0x20

/-- Modelled from the spec: see `BIND_OPCODE_DONE`. -/
@[simp] def BIND_OPCODE_SET_DYLIB_SPECIAL_IMM : Nat := 0x30

/-- Modelled from the spec: see `BIND_OPCODE_DONE`. -/
@[simp] def BIND_OPCODE_SET_SYMBOL_TRAILING_FLAGS_IMM : Nat := 0x40

/-- Modelled from the spec: see `BIND_OPCODE_DONE`. -/
@[simp] def BIND_OPCODE_SET_TYPE_IMM : Nat := 0x50

/-- Modelled from the spec: see `BIND_OPCODE_DONE`. -/
@[simp] def BIND_OPCODE_SET_ADDEND_SLEB : Nat := 0x60

/-- Modelled from the spec: see `BIND_OPCODE_DONE`. -/
@[simp] def BIND_OPCODE_SET_SEGMENT_AND_OFFSET_ULEB : Nat := 0x70

/-- Modelled from the spec: see `BIND_OPCODE_DONE`. -/
@[simp] def BIND_OPCODE_ADD_ADDR_ULEB : Nat := 0x80

/-- Modelled from the spec: see `BIND_OPCODE_DONE`. -/
@[simp] def BIND_OPCODE_DO_BIND : Nat := 0x90

/-- Modelled from the spec: see `BIND_OPCODE_DONE`. -/
@[simp] def BIND_OPCODE_DO_BIND_ADD_ADDR_ULEB : Nat := 0xA0

/-- Modelled from the spec: see `BIND_OPCODE_DONE`. -/
@[simp] def BIND_OPCODE_DO_BIND_ADD_ADDR_IMM_SCALED : Nat := 0xB0

/-- Modelled from the spec: see `BIND_OPCODE_DONE`. -/
@[simp] def BIND_OPCODE_DO_BIND_ULEB_TIMES_SKIPPING_ULEB : Nat := 0xC0

/-- Modelled from the spec: the pointer bind kind used by
`BindInformation::new` and `BindInformation::is_lazy` (standard Mach-O value 1). -/
@[simp] def BIND_TYPE_POINTER : Nat := 1

/-- Failure channels of the embedded interpreter.  `badOffset` is a scroll
read error (read past the end of the underlying buffer) surfaced as an
`error::Result` by the `?` operator in the source; `panicIndex` is a Rust
panic from slice indexing out of bounds (`segments[...]` / `libs[...]` in
`Import::new`); `panicOverflow` is a Rust panic from overflow of a plain
`+` on `u64` under debug assertions (the source uses the unchecked `+`
operator, not `wrapping_add`, at those points); `fuelExhausted` never
occurs for the fuel supplied by the entry points (see `runLoop_progress`). -/
inductive BindError : Type
  | badOffset : BindError
  | panicIndex : BindError
  | panicOverflow : BindError
  | fuelExhausted : BindError
deriving DecidableEq

/-- Modelled from the spec: `scroll::Uleb128::read` is an external
collaborator (spec sections 2 and 10): an unsigned base-128 varint decoder
advancing a cursor and failing on truncated input.  `acc` and `shift`
accumulate the 7-bit groups; the result is reduced `% 2 ^ 64` (the Rust
reader produces a `u64`).  The fuel `data.length + 1` is always sufficient:
the cursor grows by one each step, so the lookup reports the truncation
first. -/
def ulebCore (data : List Nat) : Nat → Nat → Nat → Nat → Except BindError (Nat × Nat)
  | 0, _, _, _ => .error .badOffset
  | fuel + 1, shift, acc, offset =>
    match data[offset]? with
    | none => .error .badOffset
    | some byte =>
      if byte &&& 0x80 = 0 then
        .ok ((acc + (byte &&& 0x7F) * 2 ^ shift) % 2 ^ 64, offset + 1)
      else
        ulebCore data fuel (shift + 7) (acc + (byte &&& 0x7F) * 2 ^ shift) (offset + 1)

/-- Modelled from the spec: see `ulebCore`. -/
def Uleb128.read (data : List Nat) (offset : Nat) : Except BindError (Nat × Nat) :=
  ulebCore data (data.length + 1) 0 0 offset

/-- Modelled from the spec: `scroll::Sleb128::read`, the signed base-128
varint decoder (spec sections 2 and 10).  On the final group the standard
SLEB128 sign bit `0x40` sign-extends the accumulated value. -/
def slebCore (data : List Nat) : Nat → Nat → Nat → Nat → Except BindError (Int × Nat)
  | 0, _, _, _ => .error .badOffset
  | fuel + 1, shift, acc, offset =>
    match data[offset]? with
    | none => .error .badOffset
    | some byte =>
      if byte &&& 0x80 = 0 then
        let raw : Nat := acc + (byte &&& 0x7F) * 2 ^ shift
        if byte &&& 0x40 = 0 then
          .ok ((raw : Int), offset + 1)
        else
          .ok ((raw : Int) - 2 ^ (shift + 7), offset + 1)
      else
        slebCore data fuel (shift + 7) (acc + (byte &&& 0x7F) * 2 ^ shift) (offset + 1)

/-- Modelled from the spec: see `slebCore`. -/
def Sleb128.read (data : List Nat) (offset : Nat) : Except BindError (Int × Nat) :=
  slebCore data (data.length + 1) 0 0 offset

/-- Bytes of `bytes` strictly before its first `0` byte, or `none` when no
`0` byte occurs (the truncated case). -/
def takeUntilNull : List Nat → Option (List Nat)
  | [] => none
  | b :: rest => if b = 0 then some [] else (takeUntilNull rest).map (b :: ·)

/-- Modelled from the spec: the null-terminated string reader
(`self.data.pread::<&str>(*offset)` via scroll), an external collaborator
failing on truncated input (spec section 2).  It does not advance the
cursor; the source advances it by `symbol_name.len() + 1` afterwards.
UTF-8 validity of the bytes is not modelled. -/
def preadStr (data : List Nat) (offset : Nat) : Except BindError (List Nat) :=
  match takeUntilNull (data.drop offset) with
  | some s => .ok s
  | none => .error .badOffset

/-- Modelled from the spec: the caller-resolved segment table entries
expose at least a file offset (spec section 6); only `fileoff` is read by
`Import::new`. -/
structure Segment where
  fileoff : Nat
deriving DecidableEq

/-- Modelled from the spec: `container::Ctx` exposes the target pointer
size in bytes, 4 or 8 (spec section 6); `ctx.size()` in the source. -/
structure Ctx where
  size : Nat
deriving DecidableEq

/-- The binding accumulator `BindInformation` of `src/mach/imports.rs`
lines 14-24: `u8` fields are `Nat` kept below `2 ^ 8`, `seg_offset` is the
`u64` address accumulator, `addend` is the `i64` read by SLEB128, and the
borrowed `symbol_name` is the byte list of the string read. -/
structure BindInformation where
  seg_index : Nat
  seg_offset : Nat
  bind_type : Nat
  symbol_library_ordinal : Nat
  symbol_name : List Nat
  symbol_flags : Nat
  addend : Int
  special_dylib : Nat
deriving DecidableEq

/-- `Default for BindInformation` (lines 38-51 of the source). -/
def BindInformation.default : BindInformation :=
  { seg_index := 0
    seg_offset := 0
    bind_type := 0
    symbol_library_ordinal := 0
    symbol_name := []
    symbol_flags := 0
    addend := 0
    special_dylib := 1 }

/-- `BindInformation::new` (lines 27-32): the default record with
`bind_type` set to `BIND_TYPE_POINTER` for the lazy pass and `0x0`
otherwise. -/
def BindInformation.new (is_lazy : Bool) : BindInformation :=
  { BindInformation.default with
    bind_type := if is_lazy then BIND_TYPE_POINTER else 0x0 }

/-- `BindInformation::is_lazy` (lines 33-35). -/
def BindInformation.is_lazy (bi : BindInformation) : Bool :=
  bi.bind_type == BIND_TYPE_POINTER

/-- The output record `Import` (lines 53-60); the borrowed `&str` fields
are the symbol-name byte list and the library-table entry. -/
structure Import where
  name : List Nat
  dylib : String
  is_lazy : Bool
  offset : Nat
  size : Nat
deriving DecidableEq

/-- `Import::new` (lines 62-77).  The source indexes
`segments[bi.seg_index as usize]` and `libs[bi.symbol_library_ordinal as
usize]` with the panicking slice index operator, modelled by
`.error .panicIndex` when the index is out of bounds; the offset addition
`segment.fileoff + bi.seg_offset` is the plain `u64` `+`, whose overflow
is a panic under debug assertions, modelled by `.error .panicOverflow`.
The slot size is the literal `8` when `bi.is_lazy()` and `0` otherwise. -/
def Import.new (bi : BindInformation) (libs : List String) (segments : List Segment) :
    Except BindError Import :=
  match segments[bi.seg_index]? with
  | none => .error .panicIndex
  | some segment =>
    if segment.fileoff + bi.seg_offset < 2 ^ 64 then
      match libs[bi.symbol_library_ordinal]? with
      | none => .error .panicIndex
      | some dylib =>
        .ok
          { name := bi.symbol_name
            dylib := dylib
            is_lazy := bi.is_lazy
            offset := segment.fileoff + bi.seg_offset
            size := if bi.is_lazy then 8 else 0 }
    else .error .panicOverflow

/-- The `for _i in 0..count { addr += skip + ctx.size() as u64; }` loop of
the `BIND_OPCODE_DO_BIND_ULEB_TIMES_SKIPPING_ULEB` arm (lines 228-231).
Both additions are the plain `u64` `+`, not `wrapping_add`: overflow is a
panic under debug assertions, modelled by `.error .panicOverflow`. -/
def bindTimesLoop (skip size : Nat) : Nat → Nat → Except BindError Nat
  | addr, 0 => .ok addr
  | addr, count + 1 =>
    if skip + size < 2 ^ 64 then
      if addr + (skip + size) < 2 ^ 64 then
        bindTimesLoop skip size (addr + (skip + size)) count
      else .error .panicOverflow
    else .error .panicOverflow

/-- The body of the `match opcode & BIND_OPCODE_MASK` dispatch in
`BindInterpreter::run` (lines 131-237), factored over one opcode byte `b`
already consumed at cursor position `off1 - 1`.  Returns the accumulator
after the arm, the `Import` pushed by the arm (`none` for non-emitting
arms), and the new cursor.  Reads go against the whole buffer `data`, as
in the source, which passes `&self.data` to every read. -/
def step (data : List Nat) (libs : List String) (segments : List Segment) (ctx : Ctx)
    (is_lazy : Bool) (b : Nat) (off1 : Nat) (bi : BindInformation) :
    Except BindError (BindInformation × Option Import × Nat) :=
  if b &&& BIND_OPCODE_MASK = BIND_OPCODE_DONE then
    .ok (BindInformation.new is_lazy, none, off1)
  else if b &&& BIND_OPCODE_MASK = BIND_OPCODE_SET_DYLIB_ORDINAL_IMM then
    .ok ({ bi with symbol_library_ordinal := b &&& BIND_IMMEDIATE_MASK }, none, off1)
  else if b &&& BIND_OPCODE_MASK = BIND_OPCODE_SET_DYLIB_ORDINAL_ULEB then
    match Uleb128.read data off1 with
    | .error e => .error e
    | .ok (v, off2) =>
      .ok ({ bi with symbol_library_ordinal := v % 2 ^ 8 }, none, off2)
  else if b &&& BIND_OPCODE_MASK = BIND_OPCODE_SET_DYLIB_SPECIAL_IMM then
    .ok ({ bi with special_dylib := b &&& BIND_IMMEDIATE_MASK }, none, off1)
  else if b &&& BIND_OPCODE_MASK = BIND_OPCODE_SET_SYMBOL_TRAILING_FLAGS_IMM then
    match preadStr data off1 with
    | .error e => .error e
    | .ok symbol_name =>
      .ok ({ bi with symbol_name := symbol_name,
                     symbol_flags := b &&& BIND_IMMEDIATE_MASK },
           none, off1 + symbol_name.length + 1)
  else if b &&& BIND_OPCODE_MASK = BIND_OPCODE_SET_TYPE_IMM then
    .ok ({ bi with bind_type := b &&& BIND_IMMEDIATE_MASK }, none, off1)
  else if b &&& BIND_OPCODE_MASK = BIND_OPCODE_SET_ADDEND_SLEB then
    match Sleb128.read data off1 with
    | .error e => .error e
    | .ok (addend, off2) => .ok ({ bi with addend := addend }, none, off2)
  else if b &&& BIND_OPCODE_MASK = BIND_OPCODE_SET_SEGMENT_AND_OFFSET_ULEB then
    match Uleb128.read data off1 with
    | .error e => .error e
    | .ok (seg_offset, off2) =>
      .ok ({ bi with seg_index := b &&& BIND_IMMEDIATE_MASK,
                     seg_offset := seg_offset }, none, off2)
  else if b &&& BIND_OPCODE_MASK = BIND_OPCODE_ADD_ADDR_ULEB then
    match Uleb128.read data off1 with
    | .error e => .error e
    | .ok (addr, off2) =>
      .ok ({ bi with seg_offset := (bi.seg_offset + addr) % 2 ^ 64 }, none, off2)
  else if b &&& BIND_OPCODE_MASK = BIND_OPCODE_DO_BIND then
    let bi2 := { bi with seg_offset := (bi.seg_offset + ctx.size) % 2 ^ 64 }
    match Import.new bi2 libs segments with
    | .error e => .error e
    | .ok imp => .ok (bi2, some imp, off1)
  else if b &&& BIND_OPCODE_MASK = BIND_OPCODE_DO_BIND_ADD_ADDR_ULEB then
    match Uleb128.read data off1 with
    | .error e => .error e
    | .ok (addr, off2) =>
      let bi2 :=
        { bi with seg_offset := ((bi.seg_offset + addr) % 2 ^ 64 + ctx.size) % 2 ^ 64 }
      match Import.new bi2 libs segments with
      | .error e => .error e
      | .ok imp => .ok (bi2, some imp, off2)
  else if b &&& BIND_OPCODE_MASK = BIND_OPCODE_DO_BIND_ADD_ADDR_IMM_SCALED then
    let bi2 :=
      { bi with seg_offset :=
          ((bi.seg_offset + (b &&& BIND_IMMEDIATE_MASK) * ctx.size) % 2 ^ 64
            + ctx.size) % 2 ^ 64 }
    match Import.new bi2 libs segments with
    | .error e => .error e
    | .ok imp => .ok (bi2, some imp, off1)
  else if b &&& BIND_OPCODE_MASK = BIND_OPCODE_DO_BIND_ULEB_TIMES_SKIPPING_ULEB then
    match Uleb128.read data off1 with
    | .error e => .error e
    | .ok (count, off2) =>
      match Uleb128.read data off2 with
      | .error e => .error e
      | .ok (skip, off3) =>
        match bindTimesLoop skip ctx.size bi.seg_offset count with
        | .error e => .error e
        | .ok addr =>
          let bi2 := { bi with seg_offset := addr }
          match Import.new bi2 libs segments with
          | .error e => .error e
          | .ok imp => .ok (bi2, some imp, off3)
  else
    .ok (bi, none, off1)

/-- The `while *offset < location.end` loop of `BindInterpreter::run`
(lines 126-238), with the amount of fuel an upper bound on the remaining
iterations (each iteration consumes the opcode byte, so the cursor gains
at least one; the entry points supply `endPos - start`, which
`runLoop_progress` proves sufficient).  Returns the imports pushed from
the current point on, in push order. -/
def runLoop (data : List Nat) (libs : List String) (segments : List Segment) (ctx : Ctx)
    (is_lazy : Bool) (endPos : Nat) :
    Nat → Nat → BindInformation → Except BindError (List Import)
  | 0, offset, _ =>
    if offset < endPos then .error .fuelExhausted else .ok []
  | fuel + 1, offset, bi =>
    if offset < endPos then
      match data[offset]? with
      | none => .error .badOffset
      | some b =>
        match step data libs segments ctx is_lazy b (offset + 1) bi with
        | .error e => .error e
        | .ok (bi2, none, off2) =>
          runLoop data libs segments ctx is_lazy endPos fuel off2 bi2
        | .ok (bi2, some imp, off2) =>
          match runLoop data libs segments ctx is_lazy endPos fuel off2 bi2 with
          | .error e => .error e
          | .ok rest => .ok (imp :: rest)
    else .ok []

/-- One interpreter pass of `BindInterpreter::run` over the half-open byte
range `loc` with a fresh accumulator, as run does after selecting the
range. -/
def runStream (data : List Nat) (libs : List String) (segments : List Segment) (ctx : Ctx)
    (is_lazy : Bool) (loc : Nat × Nat) : Except BindError (List Import) :=
  runLoop data libs segments ctx is_lazy loc.2 (loc.2 - loc.1) loc.1
    (BindInformation.new is_lazy)

/-- Modelled from the spec: the `load_command::DyldInfoCommand` fields the
constructor reads, the two native 32-bit offset/size pairs of spec
section 6. -/
structure DyldInfoCommand where
  bind_off : Nat
  bind_size : Nat
  lazy_bind_off : Nat
  lazy_bind_size : Nat
deriving DecidableEq

/-- The `BindInterpreter` struct (lines 82-86): the buffer and the two
half-open ranges. -/
structure BindInterpreter where
  data : List Nat
  location : Nat × Nat
  lazy_location : Nat × Nat
deriving DecidableEq

/-- `BindInterpreter::new` (lines 99-110): `get_pos` turns each `(off,
size)` pair into the range `off..(off + size)`.  The `u32` addition
`off + size` is modelled as the plain `Nat` sum; its `u32` overflow (a
debug panic in Rust) is not probed by any claim. -/
def BindInterpreter.new (data : List Nat) (command : DyldInfoCommand) : BindInterpreter :=
  { data := data
    location := (command.bind_off, command.bind_off + command.bind_size)
    lazy_location := (command.lazy_bind_off, command.lazy_bind_off + command.lazy_bind_size) }

/-- `BindInterpreter::run` (lines 117-240): selects `self.location` when
`is_lazy` and `self.lazy_location` otherwise (the selection in the source
is reversed relative to the flag name), then interprets that range with a
fresh accumulator.  The caller-side `&mut Vec` is modelled by returning
the pushed imports. -/
def BindInterpreter.run (self : BindInterpreter) (is_lazy : Bool) (libs : List String)
    (segments : List Segment) (ctx : Ctx) : Except BindError (List Import) :=
  runStream self.data libs segments ctx is_lazy
    (if is_lazy then self.location else self.lazy_location)

/-- `BindInterpreter::imports` (lines 111-116): the `is_lazy = false` pass
runs first, then the `is_lazy = true` pass, and the import lists are
concatenated in that order; the first error aborts. -/
def BindInterpreter.imports (self : BindInterpreter) (libs : List String)
    (segments : List Segment) (ctx : Ctx) : Except BindError (List Import) :=
  match self.run false libs segments ctx with
  | .error e => .error e
  | .ok l1 =>
    match self.run true libs segments ctx with
    | .error e => .error e
    | .ok l2 => .ok (l1 ++ l2)

/-- The four operation codes whose arms push an `Import` (used to state
the import-count property). -/
def isBindOpcode (op : Nat) : Bool :=
  (op == BIND_OPCODE_DO_BIND) || (op == BIND_OPCODE_DO_BIND_ADD_ADDR_ULEB)
    || (op == BIND_OPCODE_DO_BIND_ADD_ADDR_IMM_SCALED)
    || (op == BIND_OPCODE_DO_BIND_ULEB_TIMES_SKIPPING_ULEB)

/-- The operation codes of the closed enumeration; every other operation
code falls into the silent default arm of the dispatch. -/
def knownOpcode (op : Nat) : Bool :=
  (op == BIND_OPCODE_DONE) || (op == BIND_OPCODE_SET_DYLIB_ORDINAL_IMM)
    || (op == BIND_OPCODE_SET_DYLIB_ORDINAL_ULEB)
    || (op == BIND_OPCODE_SET_DYLIB_SPECIAL_IMM)
    || (op == BIND_OPCODE_SET_SYMBOL_TRAILING_FLAGS_IMM)
    || (op == BIND_OPCODE_SET_TYPE_IMM)
    || (op == BIND_OPCODE_SET_ADDEND_SLEB)
    || (op == BIND_OPCODE_SET_SEGMENT_AND_OFFSET_ULEB)
    || (op == BIND_OPCODE_ADD_ADDR_ULEB)
    || isBindOpcode op

/-- The cursor movement of one dispatch arm, without the accumulator: the
same conditions and reads as `step` in the same order, keeping only the
new cursor.  Used to walk a stream and count its opcodes independently of
emission. -/
def opAdvance (data : List Nat) (b : Nat) (off1 : Nat) : Except BindError Nat :=
  if b &&& BIND_OPCODE_MASK = BIND_OPCODE_DONE then
    .ok off1
  else if b &&& BIND_OPCODE_MASK = BIND_OPCODE_SET_DYLIB_ORDINAL_IMM then
    .ok off1
  else if b &&& BIND_OPCODE_MASK = BIND_OPCODE_SET_DYLIB_ORDINAL_ULEB then
    match Uleb128.read data off1 with
    | .error e => .error e
    | .ok (_, off2) => .ok off2
  else if b &&& BIND_OPCODE_MASK = BIND_OPCODE_SET_DYLIB_SPECIAL_IMM then
    .ok off1
  else if b &&& BIND_OPCODE_MASK = BIND_OPCODE_SET_SYMBOL_TRAILING_FLAGS_IMM then
    match preadStr data off1 with
    | .error e => .error e
    | .ok symbol_name => .ok (off1 + symbol_name.length + 1)
  else if b &&& BIND_OPCODE_MASK = BIND_OPCODE_SET_TYPE_IMM then
    .ok off1
  else if b &&& BIND_OPCODE_MASK = BIND_OPCODE_SET_ADDEND_SLEB then
    match Sleb128.read data off1 with
    | .error e => .error e
    | .ok (_, off2) => .ok off2
  else if b &&& BIND_OPCODE_MASK = BIND_OPCODE_SET_SEGMENT_AND_OFFSET_ULEB then
    match Uleb128.read data off1 with
    | .error e => .error e
    | .ok (_, off2) => .ok off2
  else if b &&& BIND_OPCODE_MASK = BIND_OPCODE_ADD_ADDR_ULEB then
    match Uleb128.read data off1 with
    | .error e => .error e
    | .ok (_, off2) => .ok off2
  else if b &&& BIND_OPCODE_MASK = BIND_OPCODE_DO_BIND then
    .ok off1
  else if b &&& BIND_OPCODE_MASK = BIND_OPCODE_DO_BIND_ADD_ADDR_ULEB then
    match Uleb128.read data off1 with
    | .error e => .error e
    | .ok (_, off2) => .ok off2
  else if b &&& BIND_OPCODE_MASK = BIND_OPCODE_DO_BIND_ADD_ADDR_IMM_SCALED then
    .ok off1
  else if b &&& BIND_OPCODE_MASK = BIND_OPCODE_DO_BIND_ULEB_TIMES_SKIPPING_ULEB then
    match Uleb128.read data off1 with
    | .error e => .error e
    | .ok (_, off2) =>
      match Uleb128.read data off2 with
      | .error e => .error e
      | .ok (_, off3) => .ok off3
  else
    .ok off1

/-- Walk of one stream range counting the opcodes whose arms emit an
import: the same opcode fetch, loop condition and cursor movement as
`runLoop`, counting `1` for the four `DO_BIND*` operation codes and `0`
for every other byte. -/
def countLoop (data : List Nat) (endPos : Nat) : Nat → Nat → Except BindError Nat
  | 0, offset =>
    if offset < endPos then .error .fuelExhausted else .ok 0
  | fuel + 1, offset =>
    if offset < endPos then
      match data[offset]? with
      | none => .error .badOffset
      | some b =>
        match opAdvance data b (offset + 1) with
        | .error e => .error e
        | .ok off2 =>
          match countLoop data endPos fuel off2 with
          | .error e => .error e
          | .ok n =>
            .ok (n + if isBindOpcode (b &&& BIND_OPCODE_MASK) then 1 else 0)
    else .ok 0

/-! ## Supporting lemmas about the reads and the materializer -/

theorem ulebCore_advance (data : List Nat) :
    ∀ (fuel shift acc offset v off2 : Nat),
      ulebCore data fuel shift acc offset = .ok (v, off2) → offset < off2 := by
  intro fuel
  induction fuel with
  | zero => intro shift acc offset v off2 h; simp [ulebCore] at h
  | succ n ih =>
    intro shift acc offset v off2 h
    cases hg : data[offset]? with
    | none => simp [ulebCore, hg] at h
    | some byte =>
      by_cases hb : byte &&& 0x80 = 0
      · simp [ulebCore, hg, hb] at h
        omega
      · simp only [ulebCore, hg, hb] at h
        simp at h
        have h2 := ih _ _ _ _ _ h
        omega

theorem uleb_read_advance (data : List Nat) (offset v off2 : Nat)
    (h : Uleb128.read data offset = .ok (v, off2)) : offset < off2 :=
  ulebCore_advance data _ _ _ _ _ _ h

theorem slebCore_advance (data : List Nat) :
    ∀ (fuel shift acc offset : Nat) (v : Int) (off2 : Nat),
      slebCore data fuel shift acc offset = .ok (v, off2) → offset < off2 := by
  intro fuel
  induction fuel with
  | zero => intro shift acc offset v off2 h; simp [slebCore] at h
  | succ n ih =>
    intro shift acc offset v off2 h
    cases hg : data[offset]? with
    | none => simp [slebCore, hg] at h
    | some byte =>
      by_cases hb : byte &&& 0x80 = 0
      · by_cases hs : byte &&& 0x40 = 0 <;> simp [slebCore, hg, hb, hs] at h <;> omega
      · simp only [slebCore, hg, hb] at h
        simp at h
        have h2 := ih _ _ _ _ _ h
        omega

theorem sleb_read_advance (data : List Nat) (offset : Nat) (v : Int) (off2 : Nat)
    (h : Sleb128.read data offset = .ok (v, off2)) : offset < off2 :=
  slebCore_advance data _ _ _ _ _ _ h

theorem ulebCore_error (data : List Nat) :
    ∀ (fuel shift acc offset : Nat) (e : BindError),
      ulebCore data fuel shift acc offset = .error e → e = .badOffset := by
  intro fuel
  induction fuel with
  | zero => intro shift acc offset e h; simp [ulebCore] at h; simp [h]
  | succ n ih =>
    intro shift acc offset e h
    cases hg : data[offset]? with
    | none => simp [ulebCore, hg] at h; simp [h]
    | some byte =>
      by_cases hb : byte &&& 0x80 = 0
      · simp [ulebCore, hg, hb] at h
      · simp only [ulebCore, hg, hb] at h
        simp at h
        exact ih _ _ _ _ h

theorem slebCore_error (data : List Nat) :
    ∀ (fuel shift acc offset : Nat) (e : BindError),
      slebCore data fuel shift acc offset = .error e → e = .badOffset := by
  intro fuel
  induction fuel with
  | zero => intro shift acc offset e h; simp [slebCore] at h; simp [h]
  | succ n ih =>
    intro shift acc offset e h
    cases hg : data[offset]? with
    | none => simp [slebCore, hg] at h; simp [h]
    | some byte =>
      by_cases hb : byte &&& 0x80 = 0
      · by_cases hs : byte &&& 0x40 = 0 <;> simp [slebCore, hg, hb, hs] at h
      · simp only [slebCore, hg, hb] at h
        simp at h
        exact ih _ _ _ _ h

theorem preadStr_error (data : List Nat) (offset : Nat) (e : BindError)
    (h : preadStr data offset = .error e) : e = .badOffset := by
  unfold preadStr at h
  cases ht : takeUntilNull (data.drop offset) <;> simp [ht] at h
  simp [h]

theorem Import.new_error (bi : BindInformation) (libs : List String)
    (segments : List Segment) (e : BindError)
    (h : Import.new bi libs segments = .error e) :
    e = .panicIndex ∨ e = .panicOverflow := by
  unfold Import.new at h
  cases hseg : segments[bi.seg_index]? with
  | none => simp [hseg] at h; simp [h]
  | some segment =>
    simp only [hseg] at h
    by_cases hlt : segment.fileoff + bi.seg_offset < 2 ^ 64
    · rw [if_pos hlt] at h
      cases hlib : libs[bi.symbol_library_ordinal]? with
      | none => simp [hlib] at h; simp [h]
      | some dylib => simp [hlib] at h
    · rw [if_neg hlt] at h
      injection h with h2
      exact Or.inr h2.symm

theorem bindTimesLoop_error (skip size : Nat) :
    ∀ (count addr : Nat) (e : BindError),
      bindTimesLoop skip size addr count = .error e → e = .panicOverflow := by
  intro count
  induction count with
  | zero => intro addr e h; simp [bindTimesLoop] at h
  | succ n ih =>
    intro addr e h
    unfold bindTimesLoop at h
    split_ifs at h
    · exact ih _ _ h
    · simp at h; simp [h]
    · simp at h; simp [h]

theorem uleb_read_error (data : List Nat) (offset : Nat) (e : BindError)
    (h : Uleb128.read data offset = .error e) : e = .badOffset :=
  ulebCore_error data _ _ _ _ _ h

theorem sleb_read_error (data : List Nat) (offset : Nat) (e : BindError)
    (h : Sleb128.read data offset = .error e) : e = .badOffset :=
  slebCore_error data _ _ _ _ _ h



theorem step_opAdvance (data : List Nat) (libs : List String) (segments : List Segment)
    (ctx : Ctx) (lz : Bool) (b off1 : Nat) (bi bi2 : BindInformation)
    (em : Option Import) (off2 : Nat)
    (h : step data libs segments ctx lz b off1 bi = .ok (bi2, em, off2)) :
    opAdvance data b off1 = .ok off2
      ∧ em.isSome = isBindOpcode (b &&& BIND_OPCODE_MASK) := by
  simp only [step] at h
  simp only [opAdvance]
  by_cases h1 : b &&& BIND_OPCODE_MASK = BIND_OPCODE_DONE
  · rw [if_pos h1] at h
    rw [if_pos h1]
    simp only [Except.ok.injEq, Prod.mk.injEq] at h
    exact ⟨by rw [h.2.2], by rw [h1, ← h.2.1] <;> rfl⟩
  · rw [if_neg h1] at h
    rw [if_neg h1]
    by_cases h2 : b &&& BIND_OPCODE_MASK = BIND_OPCODE_SET_DYLIB_ORDINAL_IMM
    · rw [if_pos h2] at h
      rw [if_pos h2]
      simp only [Except.ok.injEq, Prod.mk.injEq] at h
      exact ⟨by rw [h.2.2], by rw [h2, ← h.2.1] <;> rfl⟩
    · rw [if_neg h2] at h
      rw [if_neg h2]
      by_cases h3 : b &&& BIND_OPCODE_MASK = BIND_OPCODE_SET_DYLIB_ORDINAL_ULEB
      · rw [if_pos h3] at h
        rw [if_pos h3]
        cases hr : Uleb128.read data off1 with
        | error e2 => simp only [hr] at h; simp at h
        | ok p =>
          obtain ⟨v, o2⟩ := p
          simp only [hr] at h ⊢
          simp only [Except.ok.injEq, Prod.mk.injEq] at h
          exact ⟨by rw [h.2.2], by rw [h3, ← h.2.1] <;> rfl⟩
      · rw [if_neg h3] at h
        rw [if_neg h3]
        by_cases h4 : b &&& BIND_OPCODE_MASK = BIND_OPCODE_SET_DYLIB_SPECIAL_IMM
        · rw [if_pos h4] at h
          rw [if_pos h4]
          simp only [Except.ok.injEq, Prod.mk.injEq] at h
          exact ⟨by rw [h.2.2], by rw [h4, ← h.2.1] <;> rfl⟩
        · rw [if_neg h4] at h
          rw [if_neg h4]
          by_cases h5 : b &&& BIND_OPCODE_MASK = BIND_OPCODE_SET_SYMBOL_TRAILING_FLAGS_IMM
          · rw [if_pos h5] at h
            rw [if_pos h5]
            cases hr : preadStr data off1 with
            | error e2 => simp only [hr] at h; simp at h
            | ok nm =>
              simp only [hr] at h ⊢
              simp only [Except.ok.injEq, Prod.mk.injEq] at h
              exact ⟨by rw [h.2.2], by rw [h5, ← h.2.1] <;> rfl⟩
          · rw [if_neg h5] at h
            rw [if_neg h5]
            by_cases h6 : b &&& BIND_OPCODE_MASK = BIND_OPCODE_SET_TYPE_IMM
            · rw [if_pos h6] at h
              rw [if_pos h6]
              simp only [Except.ok.injEq, Prod.mk.injEq] at h
              exact ⟨by rw [h.2.2], by rw [h6, ← h.2.1] <;> rfl⟩
            · rw [if_neg h6] at h
              rw [if_neg h6]
              by_cases h7 : b &&& BIND_OPCODE_MASK = BIND_OPCODE_SET_ADDEND_SLEB
              · rw [if_pos h7] at h
                rw [if_pos h7]
                cases hr : Sleb128.read data off1 with
                | error e2 => simp only [hr] at h; simp at h
                | ok p =>
                  obtain ⟨v, o2⟩ := p
                  simp only [hr] at h ⊢
                  simp only [Except.ok.injEq, Prod.mk.injEq] at h
                  exact ⟨by rw [h.2.2], by rw [h7, ← h.2.1] <;> rfl⟩
              · rw [if_neg h7] at h
                rw [if_neg h7]
                by_cases h8 : b &&& BIND_OPCODE_MASK = BIND_OPCODE_SET_SEGMENT_AND_OFFSET_ULEB
                · rw [if_pos h8] at h
                  rw [if_pos h8]
                  cases hr : Uleb128.read data off1 with
                  | error e2 => simp only [hr] at h; simp at h
                  | ok p =>
                    obtain ⟨v, o2⟩ := p
                    simp only [hr] at h ⊢
                    simp only [Except.ok.injEq, Prod.mk.injEq] at h
                    exact ⟨by rw [h.2.2], by rw [h8, ← h.2.1] <;> rfl⟩
                · rw [if_neg h8] at h
                  rw [if_neg h8]
                  by_cases h9 : b &&& BIND_OPCODE_MASK = BIND_OPCODE_ADD_ADDR_ULEB
                  · rw [if_pos h9] at h
                    rw [if_pos h9]
                    cases hr : Uleb128.read data off1 with
                    | error e2 => simp only [hr] at h; simp at h
                    | ok p =>
                      obtain ⟨v, o2⟩ := p
                      simp only [hr] at h ⊢
                      simp only [Except.ok.injEq, Prod.mk.injEq] at h
                      exact ⟨by rw [h.2.2], by rw [h9, ← h.2.1] <;> rfl⟩
                  · rw [if_neg h9] at h
                    rw [if_neg h9]
                    by_cases h10 : b &&& BIND_OPCODE_MASK = BIND_OPCODE_DO_BIND
                    · rw [if_pos h10] at h
                      rw [if_pos h10]
                      split at h
                      · simp at h
                      · simp only [Except.ok.injEq, Prod.mk.injEq] at h
                        exact ⟨by rw [h.2.2], by rw [h10, ← h.2.1] <;> rfl⟩
                    · rw [if_neg h10] at h
                      rw [if_neg h10]
                      by_cases h11 : b &&& BIND_OPCODE_MASK = BIND_OPCODE_DO_BIND_ADD_ADDR_ULEB
                      · rw [if_pos h11] at h
                        rw [if_pos h11]
                        cases hr : Uleb128.read data off1 with
                        | error e2 => simp only [hr] at h; simp at h
                        | ok p =>
                          obtain ⟨v, o2⟩ := p
                          simp only [hr] at h ⊢
                          split at h
                          · simp at h
                          · simp only [Except.ok.injEq, Prod.mk.injEq] at h
                            exact ⟨by rw [h.2.2], by rw [h11, ← h.2.1] <;> rfl⟩
                      · rw [if_neg h11] at h
                        rw [if_neg h11]
                        by_cases h12 : b &&& BIND_OPCODE_MASK = BIND_OPCODE_DO_BIND_ADD_ADDR_IMM_SCALED
                        · rw [if_pos h12] at h
                          rw [if_pos h12]
                          split at h
                          · simp at h
                          · simp only [Except.ok.injEq, Prod.mk.injEq] at h
                            exact ⟨by rw [h.2.2], by rw [h12, ← h.2.1] <;> rfl⟩
                        · rw [if_neg h12] at h
                          rw [if_neg h12]
                          by_cases h13 : b &&& BIND_OPCODE_MASK = BIND_OPCODE_DO_BIND_ULEB_TIMES_SKIPPING_ULEB
                          · rw [if_pos h13] at h
                            rw [if_pos h13]
                            cases hr : Uleb128.read data off1 with
                            | error e2 => simp only [hr] at h; simp at h
                            | ok p =>
                              obtain ⟨cnt, o2⟩ := p
                              simp only [hr] at h ⊢
                              cases hr2 : Uleb128.read data o2 with
                              | error e2 => simp only [hr2] at h; simp at h
                              | ok q =>
                                obtain ⟨sk, o3⟩ := q
                                simp only [hr2] at h ⊢
                                split at h
                                · simp at h
                                · split at h
                                  · simp at h
                                  · simp only [Except.ok.injEq, Prod.mk.injEq] at h
                                    exact ⟨by rw [h.2.2], by rw [h13, ← h.2.1] <;> rfl⟩
                          · rw [if_neg h13] at h
                            rw [if_neg h13]
                            simp only [Except.ok.injEq, Prod.mk.injEq] at h
                            refine ⟨by rw [h.2.2], ?_⟩
                            simp [← h.2.1, isBindOpcode]
                            exact ⟨⟨⟨h10, h11⟩, h12⟩, h13⟩

theorem opAdvance_advance (data : List Nat) (b off1 off2 : Nat)
    (h : opAdvance data b off1 = .ok off2) : off1 ≤ off2 := by
  simp only [opAdvance] at h
  by_cases h1 : b &&& BIND_OPCODE_MASK = BIND_OPCODE_DONE
  · rw [if_pos h1] at h
    simp only [Except.ok.injEq] at h
    omega
  · rw [if_neg h1] at h
    by_cases h2 : b &&& BIND_OPCODE_MASK = BIND_OPCODE_SET_DYLIB_ORDINAL_IMM
    · rw [if_pos h2] at h
      simp only [Except.ok.injEq] at h
      omega
    · rw [if_neg h2] at h
      by_cases h3 : b &&& BIND_OPCODE_MASK = BIND_OPCODE_SET_DYLIB_ORDINAL_ULEB
      · rw [if_pos h3] at h
        cases hr : Uleb128.read data off1 with
        | error e2 => simp only [hr] at h; simp at h
        | ok p =>
          obtain ⟨v, o2⟩ := p
          simp only [hr] at h
          simp only [Except.ok.injEq] at h
          have ha := uleb_read_advance data off1 v o2 hr
          omega
      · rw [if_neg h3] at h
        by_cases h4 : b &&& BIND_OPCODE_MASK = BIND_OPCODE_SET_DYLIB_SPECIAL_IMM
        · rw [if_pos h4] at h
          simp only [Except.ok.injEq] at h
          omega
        · rw [if_neg h4] at h
          by_cases h5 : b &&& BIND_OPCODE_MASK = BIND_OPCODE_SET_SYMBOL_TRAILING_FLAGS_IMM
          · rw [if_pos h5] at h
            cases hr : preadStr data off1 with
            | error e2 => simp only [hr] at h; simp at h
            | ok nm =>
              simp only [hr] at h
              simp only [Except.ok.injEq] at h
              omega
          · rw [if_neg h5] at h
            by_cases h6 : b &&& BIND_OPCODE_MASK = BIND_OPCODE_SET_TYPE_IMM
            · rw [if_pos h6] at h
              simp only [Except.ok.injEq] at h
              omega
            · rw [if_neg h6] at h
              by_cases h7 : b &&& BIND_OPCODE_MASK = BIND_OPCODE_SET_ADDEND_SLEB
              · rw [if_pos h7] at h
                cases hr : Sleb128.read data off1 with
                | error e2 => simp only [hr] at h; simp at h
                | ok p =>
                  obtain ⟨v, o2⟩ := p
                  simp only [hr] at h
                  simp only [Except.ok.injEq] at h
                  have ha := sleb_read_advance data off1 v o2 hr
                  omega
              · rw [if_neg h7] at h
                by_cases h8 : b &&& BIND_OPCODE_MASK = BIND_OPCODE_SET_SEGMENT_AND_OFFSET_ULEB
                · rw [if_pos h8] at h
                  cases hr : Uleb128.read data off1 with
                  | error e2 => simp only [hr] at h; simp at h
                  | ok p =>
                    obtain ⟨v, o2⟩ := p
                    simp only [hr] at h
                    simp only [Except.ok.injEq] at h
                    have ha := uleb_read_advance data off1 v o2 hr
                    omega
                · rw [if_neg h8] at h
                  by_cases h9 : b &&& BIND_OPCODE_MASK = BIND_OPCODE_ADD_ADDR_ULEB
                  · rw [if_pos h9] at h
                    cases hr : Uleb128.read data off1 with
                    | error e2 => simp only [hr] at h; simp at h
                    | ok p =>
                      obtain ⟨v, o2⟩ := p
                      simp only [hr] at h
                      simp only [Except.ok.injEq] at h
                      have ha := uleb_read_advance data off1 v o2 hr
                      omega
                  · rw [if_neg h9] at h
                    by_cases h10 : b &&& BIND_OPCODE_MASK = BIND_OPCODE_DO_BIND
                    · rw [if_pos h10] at h
                      simp only [Except.ok.injEq] at h
                      omega
                    · rw [if_neg h10] at h
                      by_cases h11 : b &&& BIND_OPCODE_MASK = BIND_OPCODE_DO_BIND_ADD_ADDR_ULEB
                      · rw [if_pos h11] at h
                        cases hr : Uleb128.read data off1 with
                        | error e2 => simp only [hr] at h; simp at h
                        | ok p =>
                          obtain ⟨v, o2⟩ := p
                          simp only [hr] at h
                          simp only [Except.ok.injEq] at h
                          have ha := uleb_read_advance data off1 v o2 hr
                          omega
                      · rw [if_neg h11] at h
                        by_cases h12 : b &&& BIND_OPCODE_MASK = BIND_OPCODE_DO_BIND_ADD_ADDR_IMM_SCALED
                        · rw [if_pos h12] at h
                          simp only [Except.ok.injEq] at h
                          omega
                        · rw [if_neg h12] at h
                          by_cases h13 : b &&& BIND_OPCODE_MASK = BIND_OPCODE_DO_BIND_ULEB_TIMES_SKIPPING_ULEB
                          · rw [if_pos h13] at h
                            cases hr : Uleb128.read data off1 with
                            | error e2 => simp only [hr] at h; simp at h
                            | ok p =>
                              obtain ⟨cnt, o2⟩ := p
                              simp only [hr] at h
                              cases hr2 : Uleb128.read data o2 with
                              | error e2 => simp only [hr2] at h; simp at h
                              | ok q =>
                                obtain ⟨sk, o3⟩ := q
                                simp only [hr2] at h
                                simp only [Except.ok.injEq] at h
                                have ha := uleb_read_advance data off1 cnt o2 hr
                                have hb2 := uleb_read_advance data o2 sk o3 hr2
                                omega
                          · rw [if_neg h13] at h
                            simp only [Except.ok.injEq] at h
                            omega

theorem step_error (data : List Nat) (libs : List String) (segments : List Segment)
    (ctx : Ctx) (lz : Bool) (b off1 : Nat) (bi : BindInformation) (e : BindError)
    (h : step data libs segments ctx lz b off1 bi = .error e) :
    e ≠ .fuelExhausted := by
  simp only [step] at h
  by_cases h1 : b &&& BIND_OPCODE_MASK = BIND_OPCODE_DONE
  · rw [if_pos h1] at h
    simp at h
  · rw [if_neg h1] at h
    by_cases h2 : b &&& BIND_OPCODE_MASK = BIND_OPCODE_SET_DYLIB_ORDINAL_IMM
    · rw [if_pos h2] at h
      simp at h
    · rw [if_neg h2] at h
      by_cases h3 : b &&& BIND_OPCODE_MASK = BIND_OPCODE_SET_DYLIB_ORDINAL_ULEB
      · rw [if_pos h3] at h
        cases hr : Uleb128.read data off1 with
        | error e2 =>
          simp only [hr] at h
          simp only [Except.error.injEq] at h
          subst h
          have hb2 := uleb_read_error data off1 e2 hr
          simp [hb2]
        | ok p =>
          obtain ⟨v, o2⟩ := p
          simp only [hr] at h
          simp at h
      · rw [if_neg h3] at h
        by_cases h4 : b &&& BIND_OPCODE_MASK = BIND_OPCODE_SET_DYLIB_SPECIAL_IMM
        · rw [if_pos h4] at h
          simp at h
        · rw [if_neg h4] at h
          by_cases h5 : b &&& BIND_OPCODE_MASK = BIND_OPCODE_SET_SYMBOL_TRAILING_FLAGS_IMM
          · rw [if_pos h5] at h
            cases hr : preadStr data off1 with
            | error e2 =>
              simp only [hr] at h
              simp only [Except.error.injEq] at h
              subst h
              have hb2 := preadStr_error data off1 e2 hr
              simp [hb2]
            | ok nm =>
              simp only [hr] at h
              simp at h
          · rw [if_neg h5] at h
            by_cases h6 : b &&& BIND_OPCODE_MASK = BIND_OPCODE_SET_TYPE_IMM
            · rw [if_pos h6] at h
              simp at h
            · rw [if_neg h6] at h
              by_cases h7 : b &&& BIND_OPCODE_MASK = BIND_OPCODE_SET_ADDEND_SLEB
              · rw [if_pos h7] at h
                cases hr : Sleb128.read data off1 with
                | error e2 =>
                  simp only [hr] at h
                  simp only [Except.error.injEq] at h
                  subst h
                  have hb2 := sleb_read_error data off1 e2 hr
                  simp [hb2]
                | ok p =>
                  obtain ⟨v, o2⟩ := p
                  simp only [hr] at h
                  simp at h
              · rw [if_neg h7] at h
                by_cases h8 : b &&& BIND_OPCODE_MASK = BIND_OPCODE_SET_SEGMENT_AND_OFFSET_ULEB
                · rw [if_pos h8] at h
                  cases hr : Uleb128.read data off1 with
                  | error e2 =>
                    simp only [hr] at h
                    simp only [Except.error.injEq] at h
                    subst h
                    have hb2 := uleb_read_error data off1 e2 hr
                    simp [hb2]
                  | ok p =>
                    obtain ⟨v, o2⟩ := p
                    simp only [hr] at h
                    simp at h
                · rw [if_neg h8] at h
                  by_cases h9 : b &&& BIND_OPCODE_MASK = BIND_OPCODE_ADD_ADDR_ULEB
                  · rw [if_pos h9] at h
                    cases hr : Uleb128.read data off1 with
                    | error e2 =>
                      simp only [hr] at h
                      simp only [Except.error.injEq] at h
                      subst h
                      have hb2 := uleb_read_error data off1 e2 hr
                      simp [hb2]
                    | ok p =>
                      obtain ⟨v, o2⟩ := p
                      simp only [hr] at h
                      simp at h
                  · rw [if_neg h9] at h
                    by_cases h10 : b &&& BIND_OPCODE_MASK = BIND_OPCODE_DO_BIND
                    · rw [if_pos h10] at h
                      cases hi : Import.new { bi with seg_offset := (bi.seg_offset + ctx.size) % 2 ^ 64 } libs segments with
                      | error e2 =>
                        simp only [hi] at h
                        simp only [Except.error.injEq] at h
                        subst h
                        rcases Import.new_error _ _ _ _ hi with h2 | h2 <;> simp [h2]
                      | ok imp =>
                        simp only [hi] at h
                        simp at h
                    · rw [if_neg h10] at h
                      by_cases h11 : b &&& BIND_OPCODE_MASK = BIND_OPCODE_DO_BIND_ADD_ADDR_ULEB
                      · rw [if_pos h11] at h
                        cases hr : Uleb128.read data off1 with
                        | error e2 =>
                          simp only [hr] at h
                          simp only [Except.error.injEq] at h
                          subst h
                          have hb2 := uleb_read_error data off1 e2 hr
                          simp [hb2]
                        | ok p =>
                          obtain ⟨v, o2⟩ := p
                          simp only [hr] at h
                          cases hi : Import.new { bi with seg_offset := ((bi.seg_offset + v) % 2 ^ 64 + ctx.size) % 2 ^ 64 } libs segments with
                          | error e2 =>
                            simp only [hi] at h
                            simp only [Except.error.injEq] at h
                            subst h
                            rcases Import.new_error _ _ _ _ hi with h2 | h2 <;> simp [h2]
                          | ok imp =>
                            simp only [hi] at h
                            simp at h
                      · rw [if_neg h11] at h
                        by_cases h12 : b &&& BIND_OPCODE_MASK = BIND_OPCODE_DO_BIND_ADD_ADDR_IMM_SCALED
                        · rw [if_pos h12] at h
                          cases hi : Import.new { bi with seg_offset := ((bi.seg_offset + (b &&& BIND_IMMEDIATE_MASK) * ctx.size) % 2 ^ 64 + ctx.size) % 2 ^ 64 } libs segments with
                          | error e2 =>
                            simp only [hi] at h
                            simp only [Except.error.injEq] at h
                            subst h
                            rcases Import.new_error _ _ _ _ hi with h2 | h2 <;> simp [h2]
                          | ok imp =>
                            simp only [hi] at h
                            simp at h
                        · rw [if_neg h12] at h
                          by_cases h13 : b &&& BIND_OPCODE_MASK = BIND_OPCODE_DO_BIND_ULEB_TIMES_SKIPPING_ULEB
                          · rw [if_pos h13] at h
                            cases hr : Uleb128.read data off1 with
                            | error e2 =>
                              simp only [hr] at h
                              simp only [Except.error.injEq] at h
                              subst h
                              have hb2 := uleb_read_error data off1 e2 hr
                              simp [hb2]
                            | ok p =>
                              obtain ⟨cnt, o2⟩ := p
                              simp only [hr] at h
                              cases hr2 : Uleb128.read data o2 with
                              | error e2 =>
                                simp only [hr2] at h
                                simp only [Except.error.injEq] at h
                                subst h
                                have hb2 := uleb_read_error data o2 e2 hr2
                                simp [hb2]
                              | ok q =>
                                obtain ⟨sk, o3⟩ := q
                                simp only [hr2] at h
                                cases ht : bindTimesLoop sk ctx.size bi.seg_offset cnt with
                                | error e2 =>
                                  simp only [ht] at h
                                  simp only [Except.error.injEq] at h
                                  subst h
                                  have hb2 := bindTimesLoop_error sk ctx.size cnt bi.seg_offset e2 ht
                                  simp [hb2]
                                | ok addr =>
                                  simp only [ht] at h
                                  cases hi : Import.new { bi with seg_offset := addr } libs segments with
                                  | error e2 =>
                                    simp only [hi] at h
                                    simp only [Except.error.injEq] at h
                                    subst h
                                    rcases Import.new_error _ _ _ _ hi with h2 | h2 <;> simp [h2]
                                  | ok imp =>
                                    simp only [hi] at h
                                    simp at h
                          · rw [if_neg h13] at h
                            simp at h

theorem runLoop_progress (data : List Nat) (libs : List String) (segments : List Segment)
    (ctx : Ctx) (lz : Bool) (endPos : Nat) :
    ∀ (fuel offset : Nat) (bi : BindInformation),
      endPos - offset ≤ fuel →
      runLoop data libs segments ctx lz endPos fuel offset bi ≠ .error .fuelExhausted := by
  intro fuel
  induction fuel with
  | zero =>
    intro offset bi hle
    simp only [runLoop]
    rw [if_neg (by omega : ¬offset < endPos)]
    simp
  | succ n ih =>
    intro offset bi hle
    by_cases hlt : offset < endPos
    · simp only [runLoop]
      rw [if_pos hlt]
      cases hg : data[offset]? with
      | none => simp [hg]
      | some b =>
        simp only [hg]
        cases hs : step data libs segments ctx lz b (offset + 1) bi with
        | error e =>
          simp only [hs]
          have he := step_error data libs segments ctx lz b (offset + 1) bi e hs
          simp [he]
        | ok t =>
          obtain ⟨bi2, em, off2⟩ := t
          have hadv : offset + 1 ≤ off2 :=
            opAdvance_advance data b (offset + 1) off2
              (step_opAdvance data libs segments ctx lz b (offset + 1) bi bi2 em off2 hs).1
          cases em with
          | none =>
            simp only [hs]
            exact ih off2 bi2 (by omega)
          | some imp =>
            simp only [hs]
            cases hrec : runLoop data libs segments ctx lz endPos n off2 bi2 with
            | error e =>
              simp only [hrec]
              have h2 := ih off2 bi2 (by omega)
              rw [hrec] at h2
              simpa using h2
            | ok rest => simp [hrec]
    · simp only [runLoop]
      rw [if_neg hlt]
      simp

/-- C6: whenever one interpreter pass succeeds, the number of `Import`
records it produces equals the number of `DO_BIND`, `DO_BIND_ADD_ADDR_ULEB`,
`DO_BIND_ADD_ADDR_IMM_SCALED` and `DO_BIND_ULEB_TIMES_SKIPPING_ULEB`
opcodes in the decoded stream, as counted by the emission-free walk
`countLoop` (which counts `DO_BIND_ULEB_TIMES_SKIPPING_ULEB` exactly once
regardless of its count operand, and counts `SET_*` and unknown opcodes
as zero). -/
theorem import_count_eq_bind_opcode_count (data : List Nat) (libs : List String)
    (segments : List Segment) (ctx : Ctx) (lz : Bool) (endPos : Nat) :
    ∀ (fuel offset : Nat) (bi : BindInformation) (l : List Import),
      runLoop data libs segments ctx lz endPos fuel offset bi = .ok l →
      countLoop data endPos fuel offset = .ok l.length := by
  intro fuel
  induction fuel with
  | zero =>
    intro offset bi l h
    simp only [runLoop] at h
    simp only [countLoop]
    by_cases hlt : offset < endPos
    · rw [if_pos hlt] at h; simp at h
    · rw [if_neg hlt] at h
      rw [if_neg hlt]
      simp only [Except.ok.injEq] at h
      subst h
      rfl
  | succ n ih =>
    intro offset bi l h
    simp only [runLoop] at h
    simp only [countLoop]
    by_cases hlt : offset < endPos
    · rw [if_pos hlt] at h
      rw [if_pos hlt]
      cases hg : data[offset]? with
      | none => simp only [hg] at h; simp at h
      | some b =>
        simp only [hg] at h
        simp only [hg]
        cases hs : step data libs segments ctx lz b (offset + 1) bi with
        | error e => simp only [hs] at h; simp at h
        | ok t =>
          obtain ⟨bi2, em, off2⟩ := t
          obtain ⟨hoa, hem⟩ :=
            step_opAdvance data libs segments ctx lz b (offset + 1) bi bi2 em off2 hs
          simp only [hoa]
          cases em with
          | none =>
            simp only [hs] at h
            have h2 := ih off2 bi2 l h
            simp only [h2]
            have hb : isBindOpcode (b &&& BIND_OPCODE_MASK) = false := by
              simpa using hem.symm
            rw [hb]
            simp
          | some imp =>
            simp only [hs] at h
            cases hrec : runLoop data libs segments ctx lz endPos n off2 bi2 with
            | error e => simp only [hrec] at h; simp at h
            | ok rest =>
              simp only [hrec] at h
              simp only [Except.ok.injEq] at h
              subst h
              have h2 := ih off2 bi2 rest hrec
              simp only [h2]
              have hb : isBindOpcode (b &&& BIND_OPCODE_MASK) = true := by
                simpa using hem.symm
              rw [hb]
              simp
    · rw [if_neg hlt] at h
      rw [if_neg hlt]
      simp only [Except.ok.injEq] at h
      subst h
      rfl

/-- One-step unfolding equation of `runLoop` for a successor fuel value,
convenient for rewriting at literal fuels. -/
theorem runLoop_succ (data : List Nat) (libs : List String) (segments : List Segment)
    (ctx : Ctx) (lz : Bool) (endPos fuel offset : Nat) (bi : BindInformation) :
    runLoop data libs segments ctx lz endPos (fuel + 1) offset bi =
      (if offset < endPos then
        match data[offset]? with
        | none => .error .badOffset
        | some b =>
          match step data libs segments ctx lz b (offset + 1) bi with
          | .error e => .error e
          | .ok (bi2, none, off2) => runLoop data libs segments ctx lz endPos fuel off2 bi2
          | .ok (bi2, some imp, off2) =>
            match runLoop data libs segments ctx lz endPos fuel off2 bi2 with
            | .error e => .error e
            | .ok rest => .ok (imp :: rest)
      else .ok []) := rfl

/-! ## Claim theorems -/

/-- C1: for every `DO_BIND` opcode byte, the interpreter first advances
the accumulator segment offset by the context pointer size with wrapping
(modulo `2 ^ 64`) addition, and then emits exactly one `Import` whose
`offset` field equals the file offset of the segment selected by the
accumulator segment index plus the already-advanced segment offset.  The
overflow hypothesis `hoff` reflects the plain `u64` `+` of `Import::new`. -/
theorem doBind_advances_then_emits (data : List Nat) (libs : List String)
    (segments : List Segment) (ctx : Ctx) (lz : Bool) (b off1 : Nat)
    (bi : BindInformation) (seg : Segment) (dylib : String)
    (hop : b &&& BIND_OPCODE_MASK = BIND_OPCODE_DO_BIND)
    (hseg : segments[bi.seg_index]? = some seg)
    (hlib : libs[bi.symbol_library_ordinal]? = some dylib)
    (hoff : seg.fileoff + (bi.seg_offset + ctx.size) % 2 ^ 64 < 2 ^ 64) :
    step data libs segments ctx lz b off1 bi =
      .ok ({ bi with seg_offset := (bi.seg_offset + ctx.size) % 2 ^ 64 },
        some { name := bi.symbol_name, dylib := dylib, is_lazy := bi.is_lazy,
               offset := seg.fileoff + (bi.seg_offset + ctx.size) % 2 ^ 64,
               size := if bi.is_lazy then 8 else 0 },
        off1) := by
  have hnew : Import.new { bi with seg_offset := (bi.seg_offset + ctx.size) % 2 ^ 64 }
      libs segments =
      .ok { name := bi.symbol_name, dylib := dylib, is_lazy := bi.is_lazy,
            offset := seg.fileoff + (bi.seg_offset + ctx.size) % 2 ^ 64,
            size := if bi.is_lazy then 8 else 0 } := by
    simp only [Import.new]
    simp only [hseg]
    rw [if_pos hoff]
    simp only [hlib]
    rfl
  simp only [step]
  rw [if_neg (by rw [hop]; decide), if_neg (by rw [hop]; decide),
    if_neg (by rw [hop]; decide), if_neg (by rw [hop]; decide),
    if_neg (by rw [hop]; decide), if_neg (by rw [hop]; decide),
    if_neg (by rw [hop]; decide), if_neg (by rw [hop]; decide),
    if_neg (by rw [hop]; decide), if_pos hop]
  simp only [hnew]

/-- Witness for C1 at a concrete input. -/
theorem doBind_advances_then_emits_witness :
    ((0x90 : Nat) &&& BIND_OPCODE_MASK = BIND_OPCODE_DO_BIND)
    ∧ step [] ["l"] [⟨0x1000⟩] ⟨8⟩ true 0x90 7 (BindInformation.new true) =
        .ok ({ BindInformation.new true with seg_offset := 8 },
          some { name := [], dylib := "l", is_lazy := true, offset := 0x1008, size := 8 },
          7) :=
  ⟨by decide,
    doBind_advances_then_emits [] ["l"] [⟨0x1000⟩] ⟨8⟩ true 0x90 7
      (BindInformation.new true) ⟨0x1000⟩ "l" (by decide) rfl rfl (by decide)⟩

/-- C2: the pass with `is_lazy = true` decodes the regular byte range
`[bind_off, bind_off + bind_size)` and the pass with `is_lazy = false`
decodes the lazy range `[lazy_bind_off, lazy_bind_off + lazy_bind_size)`
(the selection in the source is reversed relative to the flag name), and
`imports` appends the results of the `is_lazy = false` pass before those
of the `is_lazy = true` pass. -/
theorem run_selects_swapped_ranges (data : List Nat) (cmd : DyldInfoCommand)
    (libs : List String) (segments : List Segment) (ctx : Ctx) (l1 l2 : List Import) :
    ((BindInterpreter.new data cmd).run true libs segments ctx =
        runStream data libs segments ctx true
          (cmd.bind_off, cmd.bind_off + cmd.bind_size))
    ∧ ((BindInterpreter.new data cmd).run false libs segments ctx =
        runStream data libs segments ctx false
          (cmd.lazy_bind_off, cmd.lazy_bind_off + cmd.lazy_bind_size))
    ∧ ((BindInterpreter.new data cmd).run false libs segments ctx = .ok l1 →
        (BindInterpreter.new data cmd).run true libs segments ctx = .ok l2 →
        (BindInterpreter.new data cmd).imports libs segments ctx = .ok (l1 ++ l2)) := by
  refine ⟨rfl, rfl, fun ha hb => ?_⟩
  unfold BindInterpreter.imports
  rw [ha, hb]

/-- Witness for C2 at a concrete input. -/
theorem run_selects_swapped_ranges_witness :
    (BindInterpreter.new [] ⟨0, 0, 0, 0⟩).run false [] [] ⟨8⟩ = .ok []
    ∧ (BindInterpreter.new [] ⟨0, 0, 0, 0⟩).imports [] [] ⟨8⟩ = .ok ([] ++ []) :=
  ⟨rfl, (run_selects_swapped_ranges [] ⟨0, 0, 0, 0⟩ [] [] ⟨8⟩ [] []).2.2 rfl rfl⟩

/-- Witness for C6 at a concrete input: one `DO_BIND` followed by `DONE`
yields one import and a bind-opcode count of one. -/
theorem import_count_eq_bind_opcode_count_witness :
    runLoop [0x90, 0x00] ["l"] [⟨0⟩] ⟨8⟩ true 2 2 0 (BindInformation.new true) =
      .ok [{ name := [], dylib := "l", is_lazy := true, offset := 8, size := 8 }]
    ∧ countLoop [0x90, 0x00] 2 2 0 = .ok 1 :=
  ⟨rfl,
    import_count_eq_bind_opcode_count [0x90, 0x00] ["l"] [⟨0⟩] ⟨8⟩ true 2 2 0
      (BindInformation.new true)
      [{ name := [], dylib := "l", is_lazy := true, offset := 8, size := 8 }] rfl⟩

/-- Counterexample for C3: on a lazy-pass emission with a context pointer
size of 4, the emitted size field is the literal 8 (the source hardcodes
`8` in `Import::new`), not the context pointer size. -/
theorem lazy_size_ignores_ctx_cex :
    runStream [0x90] ["l"] [⟨0⟩] ⟨4⟩ true (0, 1) =
      .ok [{ name := [], dylib := "l", is_lazy := true, offset := 4, size := 8 }]
    ∧ (8 : Nat) ≠ (Ctx.mk 4).size :=
  ⟨rfl, by decide⟩

/-- C3 (amended): the size field of every materialized import is the
literal 8 when the binding is lazy and 0 otherwise, independently of the
context pointer size (`Import::new` takes no context argument). -/
theorem import_size_is_literal_eight_when_lazy (bi : BindInformation)
    (libs : List String) (segments : List Segment) (imp : Import)
    (h : Import.new bi libs segments = .ok imp) :
    imp.size = if imp.is_lazy then 8 else 0 := by
  unfold Import.new at h
  cases hseg : segments[bi.seg_index]? with
  | none => simp [hseg] at h
  | some segment =>
    simp only [hseg] at h
    by_cases hlt : segment.fileoff + bi.seg_offset < 2 ^ 64
    · rw [if_pos hlt] at h
      cases hlib : libs[bi.symbol_library_ordinal]? with
      | none => simp [hlib] at h
      | some dylib =>
        simp only [hlib] at h
        simp only [Except.ok.injEq] at h
        subst h
        by_cases hl : bi.is_lazy <;> simp [hl]
    · rw [if_neg hlt] at h
      simp at h

/-- Witness for the amended C3 at a concrete input. -/
theorem import_size_is_literal_eight_when_lazy_witness :
    Import.new (BindInformation.new true) ["l"] [⟨0⟩] =
      .ok { name := [], dylib := "l", is_lazy := true, offset := 0, size := 8 }
    ∧ ({ name := [], dylib := "l", is_lazy := true, offset := 0, size := 8 } : Import).size
        = if ({ name := [], dylib := "l", is_lazy := true, offset := 0,
                size := 8 } : Import).is_lazy then 8 else 0 :=
  ⟨rfl, import_size_is_literal_eight_when_lazy (BindInformation.new true) ["l"] [⟨0⟩] _ rfl⟩

/-- Counterexample for C4: a final SLEB128 read that starts inside the
declared stream range `[0, 2)` and extends past its end (consuming the
byte at index 2, which is beyond the stream end but inside the buffer)
does not fail: the decode returns an empty import list, and the read
itself succeeds with the cursor at 3. -/
theorem read_past_stream_end_succeeds_cex :
    runStream [0x60, 0x80, 0x01] [] [] ⟨8⟩ true (0, 2) = .ok []
    ∧ Sleb128.read [0x60, 0x80, 0x01] 1 = .ok (128, 3) :=
  ⟨rfl, rfl⟩

/-- C4 (amended): the truncated-read failure is bounded by the underlying
buffer, not by the declared stream end: whenever the final SLEB128 read of
a `SET_ADDEND_SLEB` stream succeeds against the buffer with a cursor at or
past the stream end, the decode succeeds, while the same stream range over
a buffer that ends mid-varint fails with the bad-offset error. -/
theorem truncation_error_only_at_buffer_end (data : List Nat) (a : Int) (off3 : Nat)
    (h0 : data[0]? = some 0x60)
    (hr : Sleb128.read data 1 = .ok (a, off3))
    (hge : 2 ≤ off3) :
    runStream data [] [] ⟨8⟩ true (0, 2) = .ok []
    ∧ runStream [0x60, 0x80] [] [] ⟨8⟩ true (0, 2) = .error .badOffset := by
  constructor
  · have hstep : step data [] [] ⟨8⟩ true 0x60 1 (BindInformation.new true) =
        .ok ({ BindInformation.new true with addend := a }, none, off3) := by
      simp only [step]
      rw [if_neg (by decide), if_neg (by decide), if_neg (by decide),
        if_neg (by decide), if_neg (by decide), if_neg (by decide),
        if_pos (by decide)]
      simp only [hr]
    show runLoop data [] [] ⟨8⟩ true 2 2 0 (BindInformation.new true) = .ok []
    rw [runLoop_succ, if_pos (by decide : (0 : Nat) < 2)]
    simp only [h0, hstep]
    rw [runLoop_succ, if_neg (by omega : ¬off3 < 2)]
  · rfl

/-- Witness for the amended C4 at a concrete input. -/
theorem truncation_error_only_at_buffer_end_witness :
    runStream [0x60, 0x80, 0x01] [] [] ⟨8⟩ true (0, 2) = .ok []
    ∧ runStream [0x60, 0x80] [] [] ⟨8⟩ true (0, 2) = .error .badOffset :=
  truncation_error_only_at_buffer_end [0x60, 0x80, 0x01] 128 3 rfl rfl (by decide)

/-- C5: evaluating the failing input.  With a library table of length 1
and a stream that sets the library ordinal to 5 and then emits, the run
ends in the out-of-bounds-index panic of the slice indexing in
`Import::new` (`libs[5]`), a panic rather than an `error::Result` value
returned to the caller; the second conjunct pins the panic to the
materializer itself. -/
theorem oob_ordinal_panics :
    runStream [0x20, 0x05, 0x90] ["lib"] [⟨4096⟩] ⟨8⟩ true (0, 3) = .error .panicIndex
    ∧ Import.new { BindInformation.new true with symbol_library_ordinal := 5, seg_offset := 8 }
        ["lib"] [⟨4096⟩] = .error .panicIndex :=
  ⟨rfl, rfl⟩

/-- C7: evaluating the failing input.  The skip operand decodes to
`2 ^ 64 - 1`; the `addr += skip + ctx.size()` accumulation of the
`DO_BIND_ULEB_TIMES_SKIPPING_ULEB` arm is a plain overflow-checked `u64`
`+` (not the `wrapping_add` of every other offset update), so one
iteration with pointer size 8 overflows and panics under debug assertions
instead of wrapping. -/
theorem skip_loop_overflow_panics :
    Uleb128.read [0xC0, 0x01, 0xFF, 0xFF, 0xFF, 0xFF, 0xFF, 0xFF, 0xFF, 0xFF, 0xFF, 0x01] 2 =
      .ok (2 ^ 64 - 1, 12)
    ∧ bindTimesLoop (2 ^ 64 - 1) 8 0 1 = .error .panicOverflow
    ∧ runStream [0xC0, 0x01, 0xFF, 0xFF, 0xFF, 0xFF, 0xFF, 0xFF, 0xFF, 0xFF, 0xFF, 0x01]
        ["l"] [⟨0⟩] ⟨8⟩ true (0, 12) = .error .panicOverflow :=
  ⟨rfl, rfl, rfl⟩

/-- C8: an opcode byte whose operation bits are outside the known
enumeration changes no accumulator state, emits no import and does not
abort: the loop simply continues at the next byte with the same
accumulator (first conjunct); and the dispatch loop terminates on every
input: a stream pass never exhausts the fuel that bounds the loop
iterations, because every iteration advances the cursor by at least the
one opcode byte (second conjunct). -/
theorem unknown_opcode_skipped_and_loop_terminates :
    (∀ (data : List Nat) (libs : List String) (segments : List Segment) (ctx : Ctx)
        (lz : Bool) (endPos fuel offset : Nat) (bi : BindInformation) (b : Nat),
        data[offset]? = some b → knownOpcode (b &&& BIND_OPCODE_MASK) = false →
        offset < endPos →
        runLoop data libs segments ctx lz endPos (fuel + 1) offset bi =
          runLoop data libs segments ctx lz endPos fuel (offset + 1) bi)
    ∧ (∀ (data : List Nat) (libs : List String) (segments : List Segment) (ctx : Ctx)
        (lz : Bool) (loc : Nat × Nat),
        runStream data libs segments ctx lz loc ≠ .error .fuelExhausted) := by
  constructor
  · intro data libs segments ctx lz endPos fuel offset bi b hg hk hlt
    have k1 : ¬(b &&& BIND_OPCODE_MASK = BIND_OPCODE_DONE) := by
      intro hx; rw [hx] at hk; exact absurd hk (by decide)
    have k2 : ¬(b &&& BIND_OPCODE_MASK = BIND_OPCODE_SET_DYLIB_ORDINAL_IMM) := by
      intro hx; rw [hx] at hk; exact absurd hk (by decide)
    have k3 : ¬(b &&& BIND_OPCODE_MASK = BIND_OPCODE_SET_DYLIB_ORDINAL_ULEB) := by
      intro hx; rw [hx] at hk; exact absurd hk (by decide)
    have k4 : ¬(b &&& BIND_OPCODE_MASK = BIND_OPCODE_SET_DYLIB_SPECIAL_IMM) := by
      intro hx; rw [hx] at hk; exact absurd hk (by decide)
    have k5 : ¬(b &&& BIND_OPCODE_MASK = BIND_OPCODE_SET_SYMBOL_TRAILING_FLAGS_IMM) := by
      intro hx; rw [hx] at hk; exact absurd hk (by decide)
    have k6 : ¬(b &&& BIND_OPCODE_MASK = BIND_OPCODE_SET_TYPE_IMM) := by
      intro hx; rw [hx] at hk; exact absurd hk (by decide)
    have k7 : ¬(b &&& BIND_OPCODE_MASK = BIND_OPCODE_SET_ADDEND_SLEB) := by
      intro hx; rw [hx] at hk; exact absurd hk (by decide)
    have k8 : ¬(b &&& BIND_OPCODE_MASK = BIND_OPCODE_SET_SEGMENT_AND_OFFSET_ULEB) := by
      intro hx; rw [hx] at hk; exact absurd hk (by decide)
    have k9 : ¬(b &&& BIND_OPCODE_MASK = BIND_OPCODE_ADD_ADDR_ULEB) := by
      intro hx; rw [hx] at hk; exact absurd hk (by decide)
    have k10 : ¬(b &&& BIND_OPCODE_MASK = BIND_OPCODE_DO_BIND) := by
      intro hx; rw [hx] at hk; exact absurd hk (by decide)
    have k11 : ¬(b &&& BIND_OPCODE_MASK = BIND_OPCODE_DO_BIND_ADD_ADDR_ULEB) := by
      intro hx; rw [hx] at hk; exact absurd hk (by decide)
    have k12 : ¬(b &&& BIND_OPCODE_MASK = BIND_OPCODE_DO_BIND_ADD_ADDR_IMM_SCALED) := by
      intro hx; rw [hx] at hk; exact absurd hk (by decide)
    have k13 : ¬(b &&& BIND_OPCODE_MASK = BIND_OPCODE_DO_BIND_ULEB_TIMES_SKIPPING_ULEB) := by
      intro hx; rw [hx] at hk; exact absurd hk (by decide)
    have hstep : step data libs segments ctx lz b (offset + 1) bi = .ok (bi, none, offset + 1) := by
      simp only [step]
      rw [if_neg k1, if_neg k2, if_neg k3, if_neg k4, if_neg k5, if_neg k6, if_neg k7,
        if_neg k8, if_neg k9, if_neg k10, if_neg k11, if_neg k12, if_neg k13]
    rw [runLoop_succ, if_pos hlt]
    simp only [hg, hstep]
  · intro data libs segments ctx lz loc
    exact runLoop_progress data libs segments ctx lz loc.2 (loc.2 - loc.1) loc.1
      (BindInformation.new lz) (le_refl _)

/-- Witness for C8 at a concrete input: the unknown opcode byte `0xE0`
is skipped (same accumulator, next byte), and a pass over that byte does
not exhaust its fuel. -/
theorem unknown_opcode_skipped_and_loop_terminates_witness :
    runLoop [0xE0] ["l"] [⟨0⟩] ⟨8⟩ true 1 1 0 (BindInformation.new true) =
      runLoop [0xE0] ["l"] [⟨0⟩] ⟨8⟩ true 1 0 1 (BindInformation.new true)
    ∧ runStream [0xE0] ["l"] [⟨0⟩] ⟨8⟩ true (0, 1) ≠ .error .fuelExhausted :=
  ⟨unknown_opcode_skipped_and_loop_terminates.1 [0xE0] ["l"] [⟨0⟩] ⟨8⟩ true 1 0 0
      (BindInformation.new true) 0xE0 rfl (by decide) (by decide),
    unknown_opcode_skipped_and_loop_terminates.2 [0xE0] ["l"] [⟨0⟩] ⟨8⟩ true (0, 1)⟩

/-- Counterexample for C9: after `SET_DYLIB_SPECIAL_IMM` with immediate 2,
the next emission still resolves its library from ordinal 0 (the library
named "a"), not from the special immediate 2 (which would name "c"): the
immediate is not stored in the ordinal field. -/
theorem special_imm_does_not_set_ordinal_cex :
    runStream [0x32, 0x90] ["a", "b", "c"] [⟨0⟩] ⟨8⟩ true (0, 2) =
      .ok [{ name := [], dylib := "a", is_lazy := true, offset := 8, size := 8 }]
    ∧ (["a", "b", "c"] : List String)[2]? = some "c"
    ∧ "a" ≠ "c" :=
  ⟨rfl, rfl, by decide⟩

/-- C9 (amended): `SET_DYLIB_SPECIAL_IMM` stores its 4-bit immediate into
the separate `special_dylib` field of the accumulator; the
`symbol_library_ordinal` field is left unchanged, so the value used as the
library ordinal at the next emission is unaffected by this opcode. -/
theorem special_imm_sets_special_dylib (data : List Nat) (libs : List String)
    (segments : List Segment) (ctx : Ctx) (lz : Bool) (b off1 : Nat)
    (bi : BindInformation)
    (hop : b &&& BIND_OPCODE_MASK = BIND_OPCODE_SET_DYLIB_SPECIAL_IMM) :
    step data libs segments ctx lz b off1 bi =
      .ok ({ bi with special_dylib := b &&& BIND_IMMEDIATE_MASK }, none, off1)
    ∧ ({ bi with special_dylib := b &&& BIND_IMMEDIATE_MASK } :
        BindInformation).symbol_library_ordinal = bi.symbol_library_ordinal := by
  refine ⟨?_, rfl⟩
  simp only [step]
  rw [if_neg (by rw [hop]; decide), if_neg (by rw [hop]; decide),
    if_neg (by rw [hop]; decide), if_pos hop]

/-- Witness for the amended C9 at a concrete input. -/
theorem special_imm_sets_special_dylib_witness :
    ((0x32 : Nat) &&& BIND_OPCODE_MASK = BIND_OPCODE_SET_DYLIB_SPECIAL_IMM)
    ∧ (step [] ["a", "b", "c"] [⟨0⟩] ⟨8⟩ true 0x32 1 (BindInformation.new true) =
        .ok ({ BindInformation.new true with special_dylib := 2 }, none, 1)
      ∧ ({ BindInformation.new true with special_dylib := 2 } :
          BindInformation).symbol_library_ordinal =
            (BindInformation.new true).symbol_library_ordinal) :=
  ⟨by decide,
    special_imm_sets_special_dylib [] ["a", "b", "c"] [⟨0⟩] ⟨8⟩ true 0x32 1
      (BindInformation.new true) (by decide)⟩

/-- C10: the lazy flag and size of every materialized import are
determined solely by whether the accumulator bind type equals
`BIND_TYPE_POINTER` at the moment of emission (`Import::new` takes no
pass parameter at all), and `SET_TYPE_IMM` overwrites the bind type with
its immediate in either pass, so a pointer-type immediate during the
`is_lazy = false` pass makes subsequent emissions lazy with size 8, and a
non-pointer immediate during the `is_lazy = true` pass makes them
non-lazy with size 0. -/
theorem lazy_flag_determined_by_bind_type :
    (∀ (bi : BindInformation) (libs : List String) (segments : List Segment) (imp : Import),
        Import.new bi libs segments = .ok imp →
        imp.is_lazy = bi.is_lazy
          ∧ imp.is_lazy = (bi.bind_type == BIND_TYPE_POINTER)
          ∧ imp.size = if bi.bind_type == BIND_TYPE_POINTER then 8 else 0)
    ∧ (∀ (data : List Nat) (libs : List String) (segments : List Segment) (ctx : Ctx)
        (lz : Bool) (b off1 : Nat) (bi : BindInformation),
        b &&& BIND_OPCODE_MASK = BIND_OPCODE_SET_TYPE_IMM →
        step data libs segments ctx lz b off1 bi =
          .ok ({ bi with bind_type := b &&& BIND_IMMEDIATE_MASK }, none, off1)) := by
  constructor
  · intro bi libs segments imp h
    unfold Import.new at h
    cases hseg : segments[bi.seg_index]? with
    | none => simp [hseg] at h
    | some segment =>
      simp only [hseg] at h
      by_cases hlt : segment.fileoff + bi.seg_offset < 2 ^ 64
      · rw [if_pos hlt] at h
        cases hlib : libs[bi.symbol_library_ordinal]? with
        | none => simp [hlib] at h
        | some dylib =>
          simp only [hlib] at h
          simp only [Except.ok.injEq] at h
          subst h
          refine ⟨rfl, rfl, ?_⟩
          simp [BindInformation.is_lazy]
      · rw [if_neg hlt] at h
        simp at h
  · intro data libs segments ctx lz b off1 bi hop
    simp only [step]
    rw [if_neg (by rw [hop]; decide), if_neg (by rw [hop]; decide),
      if_neg (by rw [hop]; decide), if_neg (by rw [hop]; decide),
      if_neg (by rw [hop]; decide), if_pos hop]

/-- Witness for C10 at concrete inputs: an emission with pointer bind type
reports lazy with size 8, and `SET_TYPE_IMM` with immediate 1 during the
`is_lazy = false` pass sets the bind type to the pointer type. -/
theorem lazy_flag_determined_by_bind_type_witness :
    (({ name := [], dylib := "l", is_lazy := true, offset := 0, size := 8 } : Import).is_lazy
        = (BindInformation.new true).is_lazy
      ∧ ({ name := [], dylib := "l", is_lazy := true, offset := 0, size := 8 } : Import).is_lazy
        = ((BindInformation.new true).bind_type == BIND_TYPE_POINTER)
      ∧ ({ name := [], dylib := "l", is_lazy := true, offset := 0, size := 8 } : Import).size
        = if (BindInformation.new true).bind_type == BIND_TYPE_POINTER then 8 else 0)
    ∧ step [] [] [] ⟨8⟩ false 0x51 3 (BindInformation.new false) =
        .ok ({ BindInformation.new false with bind_type := 1 }, none, 3) :=
  ⟨lazy_flag_determined_by_bind_type.1 (BindInformation.new true) ["l"] [⟨0⟩]
      { name := [], dylib := "l", is_lazy := true, offset := 0, size := 8 } rfl,
    lazy_flag_determined_by_bind_type.2 [] [] [] ⟨8⟩ false 0x51 3
      (BindInformation.new false) (by decide)⟩
